import Mathlib

/-!
Verification of the NoteType note/journal manager (Go sources under `cmd/`).

This file shallowly embeds the pure logic of the program:

* `cmd/tags.go` — hashtag extraction (`extractTags`, modelled as a scanner
  equivalent to Go's regexp `(?:^|[^#\w])#([\w-]+)` with leftmost,
  non-overlapping matching), and the tag-count index (`getAllTags`).
* `cmd/templates.go` — template variable substitution
  (`substituteVariables`, a sequential `strings.ReplaceAll` per key).
* the theme store (`loadTheme`, `saveTheme`, the `theme set` command) with
  the full built-in theme catalog.
* `cmd/tui.go` — the Bubble Tea model's pure transition logic for the
  events the specification constrains: the global Back/Quit/Help keys,
  `saveCurrentNote`, `deleteSelected`, `loadJournals`/`loadNotes`, and the
  CLI `listJournalEntries` ordering from `cmd/new.go`.

File-system effects are made explicit: each effectful operation takes a
small state record (which files exist, their contents, which operations
the OS would fail) and returns the updated state.  `filepath.Glob` is
modelled as returning the matching names in ascending lexicographic
order, which is what Go's implementation produces (it sorts each
directory's matches).  Display-only metadata (mod-times, file sizes,
lipgloss styles, viewport dimensions) is not modelled; no claim below
depends on it.
-/

/-! ### String ordering

Go compares strings byte-wise; on the code points appearing here (and on
all of UTF-8, whose encoding is order-preserving) this is exactly
lexicographic comparison of the character sequences.  Core's
`String.decidableLT` does not reduce in the kernel, so we use our own
executable comparison on `List Char`.
-/

/-- Lexicographic strict comparison of character lists (Go `<` on strings). -/
def charListLt : List Char → List Char → Bool
  | [], [] => false
  | [], _ :: _ => true
  | _ :: _, [] => false
  | a :: as, b :: bs => if a < b then true else if b < a then false else charListLt as bs

/-- Go string `<` (byte-wise, here code-point-wise). -/
def strLtB (a b : String) : Bool := charListLt a.data b.data

/-- Go string `<=`: `a <= b` iff `¬ (b < a)`. -/
def strLeB (a b : String) : Bool := !(strLtB b a)

/-- Insert a string into a (sorted) list, keeping ascending order.
Together with `sortAsc` this models the output of Go's `sort.Strings`
(the output of a sort is determined by the ordering alone). -/
def insertAsc (a : String) : List String → List String
  | [] => [a]
  | b :: bs => if strLtB a b then a :: b :: bs else b :: insertAsc a bs

/-- Ascending lexicographic sort, the output contract of `sort.Strings`
and the order in which `filepath.Glob` returns its matches. -/
def sortAsc : List String → List String
  | [] => []
  | a :: as => insertAsc a (sortAsc as)

/-- Adjacent-pairs ascending sortedness. -/
def SortedAsc (l : List String) : Prop := l.Chain' (fun a b => strLeB a b = true)

/-- Adjacent-pairs descending sortedness ("newest first" for dated names). -/
def SortedDesc (l : List String) : Prop := l.Chain' (fun a b => strLeB b a = true)

/-! ### Tag extraction (`cmd/tags.go`, `extractTags`)

Go code:
```
re := regexp.MustCompile(`(?:^|[^#\w])#([\w-]+)`)
matches := re.FindAllStringSubmatch(content, -1)
tagMap[strings.ToLower(match[1])] = true   -- for each match
tags := sorted keys of tagMap
```
`FindAllStringSubmatch` performs leftmost, non-overlapping matching.  A
match consumes either the start of the text or one boundary character
(neither `#` nor a word character), then `#`, then a maximal nonempty run
of word characters or hyphens (the captured tag).  The scanner below
walks the text once; the flag records whether a `#` at the current
position could start a match (true at the start of the text, or right
after an unconsumed boundary character).  `fuel` only bounds the
recursion; `scanMatches` supplies `fuel = length`, which is always
enough because every step consumes at least one character.
-/

/-- Go regexp `\w` (ASCII word character). -/
def isWordChar (c : Char) : Bool := c.isAlphanum || c = '_'

/-- A character allowed inside a tag: `[\w-]`. -/
def isTagChar (c : Char) : Bool := isWordChar c || c = '-'

/-- A character matching `[^#\w]`: may precede the `#` of a tag. -/
def isBoundary (c : Char) : Bool := !(c = '#' || isWordChar c)

/-- One left-to-right pass of the regex `(?:^|[^#\w])#([\w-]+)`.
Returns the list of (start index of the `#`, captured tag) in text order. -/
def scanGo : Nat → List Char → Bool → Nat → List (Nat × String)
  | 0, _, _, _ => []
  | _ + 1, [], _, _ => []
  | fuel + 1, c :: rest, ok, i =>
    if c = '#' && ok then
      let w := rest.takeWhile isTagChar
      if w.isEmpty then
        -- `#` with no tag characters after it: not a match; the `#` is
        -- consumed, so the next character is not at a boundary.
        scanGo fuel rest false (i + 1)
      else
        (i, String.mk w) :: scanGo fuel (rest.drop w.length) false (i + 1 + w.length)
    else
      scanGo fuel rest (isBoundary c) (i + 1)

/-- All raw regex matches of the tag pattern in `s`, with positions. -/
def scanMatches (s : List Char) : List (Nat × String) := scanGo s.length s true 0

/-- ASCII lowercasing of a string (`strings.ToLower`; tag characters are
ASCII, where Go's Unicode lowering and ASCII lowering agree). -/
def lowerStr (s : String) : String := String.mk (s.data.map Char.toLower)

/-- `extractTags` from `cmd/tags.go`: the lowercased captured tags, as a
deduplicated, ascending-sorted list (Go collects them as keys of a map
and sorts with `sort.Strings`). -/
def extractTags (s : String) : List String :=
  sortAsc (((scanMatches s.data).map (·.2)).map lowerStr).dedup

/-! ### Tag index (`cmd/tags.go`, `getAllTags`)

`getAllTags` scans every journal file and then every note file, and for
each file increments `tagCounts[tag]` once per tag in `extractTags` of
that file's content.  We model the pass over one list of file contents
(journal contents followed by note contents); unreadable files are
skipped by the Go code and are simply absent from the list.
-/

/-- `for _, tag := range tags { tagCounts[tag]++ }` on a counts map. -/
def bumpCounts (counts : String → Nat) (tags : List String) : String → Nat :=
  tags.foldl (fun f t => fun x => if x = t then f x + 1 else f x) counts

/-- `getAllTags`: tag usage counts over the given file contents. -/
def getAllTags (contents : List String) : String → Nat :=
  contents.foldl (fun f c => bumpCounts f (extractTags c)) (fun _ => 0)

/-! ### Template variable substitution (`cmd/templates.go`)

Go code:
```
func substituteVariables(content string, vars map[string]string) string {
    result := content
    for key, value := range vars {
        placeholder := "{{" + key + "}}"
        result = strings.ReplaceAll(result, placeholder, value)
    }
    return result
}
```
One `strings.ReplaceAll` per key, applied sequentially to the running
result.  The map's iteration order is unspecified in Go; we model `vars`
as an association list whose order is the iteration order, so every
theorem quantifying over the list covers every possible iteration order.
`replaceGo` is `strings.ReplaceAll` on character lists: a left-to-right
scan replacing each leftmost, non-overlapping occurrence of the pattern.
`fuel` only bounds the recursion (each step consumes at least one
character, so `fuel = length` is always enough); with an empty pattern
Go would insert the replacement between runes, a case that cannot arise
here because every pattern contains braces.
-/

/-- `strings.ReplaceAll` scan (nonempty pattern): replace each leftmost,
non-overlapping occurrence of `pat` by `rep`. -/
def replaceGo : Nat → List Char → List Char → List Char → List Char
  | 0, s, _, _ => s
  | _ + 1, [], _, _ => []
  | fuel + 1, c :: rest, pat, rep =>
    if pat.isPrefixOf (c :: rest) && !pat.isEmpty then
      rep ++ replaceGo fuel (rest.drop (pat.length - 1)) pat rep
    else
      c :: replaceGo fuel rest pat rep

/-- `strings.ReplaceAll` on strings. -/
def replaceAllStr (s pat rep : String) : String :=
  String.mk (replaceGo s.data.length s.data pat.data rep.data)

/-- `substituteVariables` from `cmd/templates.go`: sequentially replace
`\x7b\x7bkey\x7d\x7d` by the key's value, one key at a time in iteration
order. -/
def substituteVariables (content : String) (vars : List (String × String)) : String :=
  vars.foldl
    (fun result kv => replaceAllStr result ("\x7b\x7b" ++ kv.1 ++ "\x7d\x7d") kv.2)
    content

/-- Does `pat` occur as a contiguous run inside `s`?  (Executable; used to
state that a pattern is absent from a string.) -/
def containsRun (pat : List Char) : List Char → Bool
  | [] => pat.isEmpty
  | c :: rest => pat.isPrefixOf (c :: rest) || containsRun pat rest

/-! ### Theme store (`theme.go`)

The `Theme` record and the full built-in catalog, the JSON round-trip of
the persisted theme name, `loadTheme`, `saveTheme` and the `theme set`
command.  `encoding/json` details: `json.Marshal` of a `string` never
fails and produces a quoted string escaping `"`, `\`, the HTML
characters `<`, `>`, `&`, and control characters; `json.Unmarshal` into
a `*string` succeeds exactly on a JSON string literal surrounded by
optional whitespace.  The decoder below implements that grammar
(surrogate `\u` escapes, which Go maps to U+FFFD, are not modelled —
they cannot be produced by `saveTheme` for any catalog name).
-/

/-- A color theme (`Theme` struct in `theme.go`). -/
structure Theme where
  name : String
  primary : String
  secondary : String
  accent : String
  success : String
  warning : String
  errorColor : String
  text : String
  muted : String
  background : String
  backgroundAlt : String
deriving DecidableEq, Repr

/-- The built-in default theme (`themes["violet"]`). -/
def violetTheme : Theme :=
  { name := "Violet (Default)", primary := "#7C3AED", secondary := "#8B5CF6"
    accent := "#A78BFA", success := "#10B981", warning := "#F59E0B"
    errorColor := "#EF4444", text := "#E5E7EB", muted := "#9CA3AF"
    background := "#1F2937", backgroundAlt := "#374151" }

/-- The built-in theme catalog (`var themes = map[string]Theme{...}`),
as an association list keyed by the catalog name. -/
def themesCatalog : List (String × Theme) :=
  [ ("violet", violetTheme),
    ("dracula",
      { name := "Dracula", primary := "#BD93F9", secondary := "#FF79C6"
        accent := "#8BE9FD", success := "#50FA7B", warning := "#F1FA8C"
        errorColor := "#FF5555", text := "#F8F8F2", muted := "#6272A4"
        background := "#282A36", backgroundAlt := "#44475A" }),
    ("nord",
      { name := "Nord", primary := "#5E81AC", secondary := "#81A1C1"
        accent := "#88C0D0", success := "#A3BE8C", warning := "#EBCB8B"
        errorColor := "#BF616A", text := "#ECEFF4", muted := "#4C566A"
        background := "#2E3440", backgroundAlt := "#3B4252" }),
    ("gruvbox",
      { name := "Gruvbox Dark", primary := "#B16286", secondary := "#D3869B"
        accent := "#8EC07C", success := "#B8BB26", warning := "#FABD2F"
        errorColor := "#FB4934", text := "#EBDBB2", muted := "#928374"
        background := "#282828", backgroundAlt := "#3C3836" }),
    ("solarized",
      { name := "Solarized Dark", primary := "#268BD2", secondary := "#2AA198"
        accent := "#6C71C4", success := "#859900", warning := "#B58900"
        errorColor := "#DC322F", text := "#93A1A1", muted := "#586E75"
        background := "#002B36", backgroundAlt := "#073642" }),
    ("monokai",
      { name := "Monokai", primary := "#F92672", secondary := "#AE81FF"
        accent := "#66D9EF", success := "#A6E22E", warning := "#E6DB74"
        errorColor := "#F92672", text := "#F8F8F2", muted := "#75715E"
        background := "#272822", backgroundAlt := "#3E3D32" }),
    ("tokyo",
      { name := "Tokyo Night", primary := "#7AA2F7", secondary := "#BB9AF7"
        accent := "#7DCFFF", success := "#9ECE6A", warning := "#E0AF68"
        errorColor := "#F7768E", text := "#C0CAF5", muted := "#565F89"
        background := "#1A1B26", backgroundAlt := "#24283B" }),
    ("catppuccin",
      { name := "Catppuccin", primary := "#CBA6F7", secondary := "#F5C2E7"
        accent := "#89DCEB", success := "#A6E3A1", warning := "#F9E2AF"
        errorColor := "#F38BA8", text := "#CDD6F4", muted := "#6C7086"
        background := "#1E1E2E", backgroundAlt := "#313244" }) ]

/-- Hexadecimal digit (lower case), for `\u00XX` escapes. -/
def hexDigit (n : Nat) : Char :=
  if n < 10 then Char.ofNat (48 + n) else Char.ofNat (87 + n)

/-- `json.Marshal` of one character of a Go string (Go escapes `"`, `\`,
HTML characters, and control characters; `\n`, `\r`, `\t` get short forms). -/
def jsonEncodeChar (c : Char) : List Char :=
  if c = '"' then ['\\', '"']
  else if c = '\\' then ['\\', '\\']
  else if c = '\n' then ['\\', 'n']
  else if c = '\r' then ['\\', 'r']
  else if c = '\t' then ['\\', 't']
  else if c = '<' || c = '>' || c = '&' || c.toNat < 32 then
    ['\\', 'u', '0', '0', hexDigit (c.toNat / 16), hexDigit (c.toNat % 16)]
  else [c]

/-- `json.Marshal` of a Go string value (never fails). -/
def jsonEncodeString (s : String) : String :=
  String.mk ('"' :: s.data.foldr (fun c acc => jsonEncodeChar c ++ acc) ['"'])

/-- Value of a hex digit character, if it is one. -/
def hexVal (c : Char) : Option Nat :=
  if '0' ≤ c && c ≤ '9' then some (c.toNat - 48)
  else if 'a' ≤ c && c ≤ 'f' then some (c.toNat - 87)
  else if 'A' ≤ c && c ≤ 'F' then some (c.toNat - 55)
  else none

/-- JSON whitespace. -/
def isJsonWs (c : Char) : Bool := c = ' ' || c = '\t' || c = '\n' || c = '\r'

/-- Decode the body of a JSON string literal after the opening quote;
returns the decoded characters and the input after the closing quote. -/
def jsonStrBody : List Char → Option (List Char × List Char)
  | [] => none
  | '"' :: rest => some ([], rest)
  | '\\' :: rest =>
    match rest with
    | [] => none
    | e :: rest2 =>
      match e with
      | '"' => (jsonStrBody rest2).map (fun p => ('"' :: p.1, p.2))
      | '\\' => (jsonStrBody rest2).map (fun p => ('\\' :: p.1, p.2))
      | '/' => (jsonStrBody rest2).map (fun p => ('/' :: p.1, p.2))
      | 'b' => (jsonStrBody rest2).map (fun p => (Char.ofNat 8 :: p.1, p.2))
      | 'f' => (jsonStrBody rest2).map (fun p => (Char.ofNat 12 :: p.1, p.2))
      | 'n' => (jsonStrBody rest2).map (fun p => ('\n' :: p.1, p.2))
      | 'r' => (jsonStrBody rest2).map (fun p => ('\r' :: p.1, p.2))
      | 't' => (jsonStrBody rest2).map (fun p => ('\t' :: p.1, p.2))
      | 'u' =>
        match rest2 with
        | h1 :: h2 :: h3 :: h4 :: rest3 =>
          match hexVal h1, hexVal h2, hexVal h3, hexVal h4 with
          | some v1, some v2, some v3, some v4 =>
            let n := ((v1 * 16 + v2) * 16 + v3) * 16 + v4
            if 0xd800 ≤ n && n < 0xe000 then none
            else (jsonStrBody rest3).map (fun p => (Char.ofNat n :: p.1, p.2))
          | _, _, _, _ => none
        | _ => none
      | _ => none
  | c :: rest =>
    if c.toNat < 32 then none
    else (jsonStrBody rest).map (fun p => (c :: p.1, p.2))

/-- `json.Unmarshal(data, &s)` for a `string` target: optional
whitespace, a string literal, optional whitespace, end of input. -/
def jsonDecodeString (data : String) : Option String :=
  match data.data.dropWhile isJsonWs with
  | '"' :: rest =>
    match jsonStrBody rest with
    | some (body, after) =>
      if (after.dropWhile isJsonWs).isEmpty then some (String.mk body) else none
    | none => none
  | _ => none

/-- State of the persisted theme-name config file. -/
inductive ThemeFile where
  | missing
  | unreadable
  | content (data : String)
deriving DecidableEq, Repr

/-- `os.ReadFile` on the theme config: both a missing and an unreadable
file yield an error (modelled as `none`). -/
def readThemeFile : ThemeFile → Option String
  | .missing => none
  | .unreadable => none
  | .content data => some data

/-- `loadTheme` from `theme.go`: read the config, unmarshal a name, look
it up in the catalog; on any failure return `themes["violet"]`. -/
def loadTheme (f : ThemeFile) : Theme :=
  match readThemeFile f with
  | none => violetTheme
  | some data =>
    match jsonDecodeString data with
    | none => violetTheme
    | some themeName =>
      match themesCatalog.lookup themeName with
      | some theme => theme
      | none => violetTheme

/-- Environment and state for the theme store's file operations:
the config directory / file contents, plus which OS calls would fail. -/
structure ThemeFS where
  dirExists : Bool
  config : Option String
  mkdirFails : Bool
  writeFails : Bool
deriving DecidableEq, Repr

/-- `saveTheme` from `theme.go`: `MkdirAll` on the config directory, then
`json.Marshal(themeName)` (which cannot fail), then `os.WriteFile`.
Returns the new state and `some errorMessage` on failure.  Note that it
performs no catalog check on `themeName`. -/
def saveTheme (themeName : String) (fs : ThemeFS) : ThemeFS × Option String :=
  if fs.mkdirFails then (fs, some "mkdir failed")
  else
    let fs1 : ThemeFS := { fs with dirExists := true }
    if fs.writeFails then (fs1, some "write failed")
    else ({ fs1 with config := some (jsonEncodeString themeName) }, none)

/-- The `theme set <name>` command (`themeSetCmd` in `theme.go`): reject a
name absent from the catalog before doing anything else; otherwise call
`saveTheme` and report the outcome.  Returns the file-system state and
the message printed. -/
def themeSetCmd (themeName : String) (fs : ThemeFS) : ThemeFS × String :=
  if (themesCatalog.lookup themeName).isSome then
    match saveTheme themeName fs with
    | (fs2, some e) => (fs2, "Error saving theme: " ++ e)
    | (fs2, none) => (fs2, "Theme set to " ++ themeName)
  else
    (fs, "Theme " ++ themeName ++ " not found")

/-! ### The TUI session (`cmd/tui.go`)

The Bubble Tea `model` restricted to the fields the specification's
claims constrain: the mode, the status message, the current item id
(`currentNote`), the active collection flag (`isJournal`), the help
toggle, the editor and viewer buffers, and the journal/notes list
components (items plus selection cursor).  Viewport dimensions, the
menu/tags/templates/themes list components and lipgloss styling carry no
claim-relevant state.  A bubbles list's `SelectedItem()` is the item at
the cursor (nil when the list is empty).

The file system visible to the TUI: the journal directory and the
notes directory (current working directory), each a map from the logical
id (file name without the `.md` suffix, e.g. `2024-01-02` for journal
entries) to file content, plus flags for the OS failures a claim talks
about (`MkdirAll` on the journal directory, `os.WriteFile`,
`os.Remove`).
-/

/-- The eight view modes (`viewMode` constants in `cmd/tui.go`). -/
inductive ViewMode where
  | menuView
  | listView
  | editorView
  | viewerView
  | searchView
  | tagsView
  | templatesView
  | themesView
deriving DecidableEq, Repr

/-- A `noteItem` list entry (display-only `date`/`size` omitted). -/
structure NoteItemM where
  filename : String
  title : String
deriving DecidableEq, Repr

/-- A bubbles list component: items and selection cursor.  `list.New`
starts the cursor at 0. -/
structure ListModel where
  items : List NoteItemM
  cursor : Nat
deriving DecidableEq, Repr

/-- `SelectedItem()`: the item at the cursor, none when out of range. -/
def ListModel.selected (l : ListModel) : Option NoteItemM := l.items[l.cursor]?

/-- The TUI `model`, restricted to claim-relevant fields. -/
structure Session where
  mode : ViewMode
  statusMsg : String
  currentNote : String
  isJournal : Bool
  showHelp : Bool
  editorBuffer : String
  viewerBuffer : String
  journalsList : ListModel
  notesList : ListModel
deriving DecidableEq, Repr

/-- Look up an id in a collection (association list id ↦ content). -/
def collFind (coll : List (String × String)) (id : String) : Option String :=
  coll.lookup id

/-- `os.WriteFile`: create the file or truncate an existing one. -/
def collWrite (coll : List (String × String)) (id content : String) :
    List (String × String) :=
  (id, content) :: coll.filter (fun kv => !(kv.1 = id))

/-- `os.Remove`: drop the file. -/
def collErase (coll : List (String × String)) (id : String) :
    List (String × String) :=
  coll.filter (fun kv => !(kv.1 = id))

/-- File-system state seen by the TUI. -/
structure WorldFS where
  journal : List (String × String)
  notes : List (String × String)
  mkdirJournalFails : Bool
  journalWriteFails : List String
  noteWriteFails : List String
  journalRemoveFails : List String
  noteRemoveFails : List String
deriving DecidableEq, Repr

/-- `filepath.Glob(journalDir + "/*.md")`, with the directory and `.md`
suffix stripped back off as the Go code does: the journal ids in
ascending lexicographic order. -/
def globJournal (w : WorldFS) : List String := sortAsc (w.journal.map (·.1))

/-- `filepath.Glob("*.md")` for notes, ids in ascending order. -/
def globNotes (w : WorldFS) : List String := sortAsc (w.notes.map (·.1))

/-- `loadJournals` from `cmd/tui.go`: rebuild the journal list from a
fresh glob (title = id; cursor reset by `list.New`), enter `listView`
with `isJournal`, and report the count. -/
def loadJournals (m : Session) (w : WorldFS) : Session :=
  let names := globJournal w
  { m with
    journalsList := { items := names.map (fun n => { filename := n, title := n }), cursor := 0 }
    mode := .listView
    isJournal := true
    statusMsg := "Found " ++ toString names.length ++ " journal entries" }

/-- `loadNotes` from `cmd/tui.go`: same for the notes collection. -/
def loadNotes (m : Session) (w : WorldFS) : Session :=
  let names := globNotes w
  { m with
    notesList := { items := names.map (fun n => { filename := n, title := n }), cursor := 0 }
    mode := .listView
    isJournal := false
    statusMsg := "Found " ++ toString names.length ++ " notes" }

/-- Does `os.Remove` of this journal entry succeed? -/
def removeJournalOk (w : WorldFS) (id : String) : Bool :=
  (collFind w.journal id).isSome && !(w.journalRemoveFails.contains id)

/-- Does `os.Remove` of this note succeed? -/
def removeNoteOk (w : WorldFS) (id : String) : Bool :=
  (collFind w.notes id).isSome && !(w.noteRemoveFails.contains id)

/-- `deleteSelected` from `cmd/tui.go`: resolve the selected entry of the
active list (nothing happens when none is selected); `os.Remove` it; on
error only set the status message; on success set a status message and
reload the active list (which overwrites the status with the new count). -/
def deleteSelected (m : Session) (w : WorldFS) : Session × WorldFS :=
  if m.isJournal then
    match m.journalsList.selected with
    | none => (m, w)
    | some it =>
      if removeJournalOk w it.filename then
        let w2 : WorldFS := { w with journal := collErase w.journal it.filename }
        (loadJournals { m with statusMsg := "Deleted successfully" } w2, w2)
      else
        ({ m with statusMsg := "Error deleting: remove " ++ it.filename ++ ".md failed" }, w)
  else
    match m.notesList.selected with
    | none => (m, w)
    | some it =>
      if removeNoteOk w it.filename then
        let w2 : WorldFS := { w with notes := collErase w.notes it.filename }
        (loadNotes { m with statusMsg := "Deleted successfully" } w2, w2)
      else
        ({ m with statusMsg := "Error deleting: remove " ++ it.filename ++ ".md failed" }, w)

/-- `saveCurrentNote` from `cmd/tui.go`.  Journal branch: `ensureJournalDir`
(`MkdirAll`), file name = `currentNote` or today's date when unset, then
`os.WriteFile`.  Notes branch: file name = `currentNote` or
`note-<unix-seconds>` when unset, then `os.WriteFile`.  Every branch only
sets the status message (and on success writes the file); the mode is
never changed.  The wall clock enters as the `today` / `unixSec`
parameters. -/
def saveCurrentNote (m : Session) (w : WorldFS) (today : String) (unixSec : Nat) :
    Session × WorldFS :=
  let content := m.editorBuffer
  if m.isJournal then
    if w.mkdirJournalFails then
      ({ m with statusMsg := "Error: creating journal directory failed" }, w)
    else
      let filename := if m.currentNote = "" then today else m.currentNote
      if w.journalWriteFails.contains filename then
        ({ m with statusMsg := "Error saving journal: write " ++ filename ++ ".md failed" }, w)
      else
        ({ m with statusMsg := "Journal saved successfully! Press Esc to go back" },
         { w with journal := collWrite w.journal filename content })
  else
    let filename := if m.currentNote = "" then "note-" ++ toString unixSec else m.currentNote
    if w.noteWriteFails.contains filename then
      ({ m with statusMsg := "Error saving note: write " ++ filename ++ ".md failed" }, w)
    else
      ({ m with statusMsg := "Note saved successfully! Press Esc to go back" },
       { w with notes := collWrite w.notes filename content })

/-- The keys handled by the global `switch` at the top of `Update`
(`cmd/tui.go`): quit (`q`/Ctrl-C), help (`?`), back (`esc`). -/
inductive GlobalKey where
  | quitKey
  | helpKey
  | backKey
deriving DecidableEq, Repr

/-- The global key handling of `Update`: quit returns `tea.Quit`
(second component `true`); help toggles `showHelp`; back moves to the
menu with status "Returned to main menu" unless already there.  In the
menu the Back case does not return, so the unconsumed `esc` reaches
`menuList.Update`: the bubbles list's default key map binds Quit to
both `q` and `esc`, and its ClearFilter binding — the only other `esc`
consumer, checked first — is disabled while no filter is applied (the
menu list has filtering disabled), so the list's browse handler matches
Quit, leaves the list state unchanged and returns `tea.Quit`, which
`Update` propagates through `tea.Batch`: the program exits. -/
def updateGlobalKey (m : Session) : GlobalKey → Session × Bool
  | .quitKey => (m, true)
  | .helpKey => ({ m with showHelp := !m.showHelp }, false)
  | .backKey =>
    if m.mode ≠ .menuView then
      ({ m with mode := .menuView, statusMsg := "Returned to main menu" }, false)
    else
      (m, true)

/-! ### CLI journal listing (`cmd/new.go`, `listJournalEntries`)

`listJournalEntries` globs the journal directory, strips the `.md`
suffixes, reverses the slice in place (the "Simple reverse sort" swap
loop `fileInfos[i], fileInfos[opp] = fileInfos[opp], fileInfos[i]` is
exactly a reversal), and displays the first `limit` entries (all of them
when `limit <= 0`). -/
def listJournalEntriesIds (limit : Int) (w : WorldFS) : List String :=
  if 0 < limit ∧ limit < (((globJournal w).reverse).length : Int)
  then ((globJournal w).reverse).take limit.toNat
  else (globJournal w).reverse

/-- The sequence of ids shown by the TUI journal list (`loadJournals`):
the items' file names in list order. -/
def loadJournalsIds (w : WorldFS) : List String :=
  ((loadJournals { mode := .menuView, statusMsg := "", currentNote := "", isJournal := false,
                    showHelp := false, editorBuffer := "", viewerBuffer := "",
                    journalsList := { items := [], cursor := 0 },
                    notesList := { items := [], cursor := 0 } } w).journalsList.items).map
    NoteItemM.filename

/-! ### Concrete sample states (used to instantiate the theorems below) -/

/-- A session sitting in the journal list with one entry selected. -/
def sampleListSession : Session :=
  { mode := .listView, statusMsg := "Found 1 journal entries", currentNote := ""
    isJournal := true, showHelp := false, editorBuffer := "", viewerBuffer := ""
    journalsList := { items := [{ filename := "2024-01-02", title := "2024-01-02" }], cursor := 0 }
    notesList := { items := [], cursor := 0 } }

/-- A session sitting in the main menu. -/
def sampleMenuSession : Session :=
  { sampleListSession with mode := .menuView, statusMsg := "Welcome" }

/-- A session editing a journal entry. -/
def sampleEditorSession : Session :=
  { sampleListSession with mode := .editorView, editorBuffer := "Hello", currentNote := "" }

/-- A file system with no journal entries or notes and no injected failures. -/
def emptyWorld : WorldFS :=
  { journal := [], notes := [], mkdirJournalFails := false
    journalWriteFails := [], noteWriteFails := []
    journalRemoveFails := [], noteRemoveFails := [] }

/-- A file system holding two journal entries. -/
def twoEntryWorld : WorldFS :=
  { emptyWorld with journal := [("2024-01-02", "b"), ("2024-01-01", "a")] }

/-- A pristine theme-store file system: no directory, no config file. -/
def freshThemeFS : ThemeFS :=
  { dirExists := false, config := none, mkdirFails := false, writeFails := false }

/-! ## Helper lemmas -/

theorem charListLt_asymm : ∀ (a b : List Char), charListLt a b = true → charListLt b a = false := by
  intro a
  induction a with
  | nil =>
    intro b h
    cases b with
    | nil => simp [charListLt] at h
    | cons c cs => simp [charListLt]
  | cons x xs ih =>
    intro b h
    cases b with
    | nil => simp [charListLt] at h
    | cons y ys =>
      simp only [charListLt] at h ⊢
      by_cases hxy : x < y
      · have hyx : ¬ y < x := lt_asymm hxy
        simp [hxy, hyx]
      · by_cases hyx : y < x
        · simp [hxy, hyx] at h
        · simp [hxy, hyx] at h ⊢
          exact ih ys h

theorem strLtB_asymm (a b : String) (h : strLtB a b = true) : strLtB b a = false :=
  charListLt_asymm a.data b.data h

theorem strLtB_false_le (a b : String) (h : strLtB a b = false) : strLeB b a = true := by
  simp [strLeB, h]

theorem insertAsc_perm (a : String) (l : List String) :
    List.Perm (insertAsc a l) (a :: l) := by
  induction l with
  | nil => simp [insertAsc]
  | cons b bs ih =>
    simp only [insertAsc]
    by_cases h : strLtB a b = true
    · simp [h]
    · simp only [h, if_false]
      exact (ih.cons b).trans (List.Perm.swap a b bs)

theorem sortAsc_perm (l : List String) : List.Perm (sortAsc l) l := by
  induction l with
  | nil => simp [sortAsc]
  | cons a as ih =>
    simp only [sortAsc]
    exact (insertAsc_perm a (sortAsc as)).trans (ih.cons a)

theorem insertAsc_headCases (a : String) (l : List String) :
    (insertAsc a l).head? = some a ∨ (insertAsc a l).head? = l.head? := by
  cases l with
  | nil => left; rfl
  | cons b bs =>
    simp only [insertAsc]
    by_cases h : strLtB a b = true
    · left; simp [h]
    · right; simp [h]

theorem insertAsc_sortedAsc (a : String) (l : List String) (h : SortedAsc l) :
    SortedAsc (insertAsc a l) := by
  induction l with
  | nil => simp [insertAsc, SortedAsc]
  | cons b bs ih =>
    simp only [SortedAsc] at h ⊢
    simp only [insertAsc]
    by_cases hab : strLtB a b = true
    · rw [if_pos hab, List.chain'_cons]
      exact ⟨by simp [strLeB, strLtB_asymm _ _ hab], h⟩
    · rw [if_neg hab, List.chain'_cons']
      have hba : strLtB a b = false := by
        revert hab; cases strLtB a b <;> simp
      constructor
      · intro x hx
        rcases insertAsc_headCases a bs with hh | hh
        · rw [hh] at hx
          simp only [Option.mem_def, Option.some.injEq] at hx
          subst hx
          exact strLtB_false_le a b hba
        · rw [hh] at hx
          exact (List.chain'_cons'.mp h).1 x hx
      · exact ih (List.chain'_cons'.mp h).2

theorem sortAsc_sortedAsc (l : List String) : SortedAsc (sortAsc l) := by
  induction l with
  | nil => simp [sortAsc, SortedAsc]
  | cons a as ih => exact insertAsc_sortedAsc a (sortAsc as) ih

theorem sortAsc_nodup (l : List String) (h : l.Nodup) : (sortAsc l).Nodup :=
  (sortAsc_perm l).nodup_iff.mpr h

theorem sortedDesc_reverse (l : List String) (h : SortedAsc l) : SortedDesc l.reverse := by
  simp only [SortedAsc] at h
  simp only [SortedDesc, List.chain'_reverse]
  exact h

theorem collFind_collWrite (coll : List (String × String)) (id content : String) :
    collFind (collWrite coll id content) id = some content := by
  simp [collFind, collWrite, List.lookup_cons]

theorem collFind_collErase (coll : List (String × String)) (id : String) :
    collFind (collErase coll id) id = none := by
  induction coll with
  | nil => rfl
  | cons kv rest ih =>
    show List.lookup id (List.filter _ (kv :: rest)) = none
    rw [List.filter_cons]
    by_cases h : kv.1 = id
    · have hd : (!decide (kv.1 = id)) = false := by simp [h]
      simp only [hd, Bool.false_eq_true, if_false]
      exact ih
    · have hd : (!decide (kv.1 = id)) = true := by simp [h]
      rw [if_pos hd, List.lookup_cons]
      have hne : (id == kv.1) = false := by
        simp [Ne.symm h]
      simp only [hne]
      exact ih

theorem lookup_mem (l : List (String × Theme)) (a : String) (b : Theme)
    (h : l.lookup a = some b) : (a, b) ∈ l := by
  induction l with
  | nil => simp [List.lookup] at h
  | cons kv rest ih =>
    rw [List.lookup_cons] at h
    cases hk : a == kv.1 with
    | true =>
      simp only [hk] at h
      have ha : a = kv.1 := eq_of_beq hk
      cases kv with
      | mk k t => simp_all
    | false =>
      simp only [hk] at h
      exact List.mem_cons_of_mem _ (ih h)

theorem extractTags_nodup (c : String) : (extractTags c).Nodup := by
  unfold extractTags
  exact (sortAsc_perm _).nodup_iff.mpr (List.nodup_dedup _)

theorem bumpCounts_apply : ∀ (tags : List String) (f : String → Nat) (x : String),
    tags.Nodup → bumpCounts f tags x = f x + (if x ∈ tags then 1 else 0) := by
  intro tags
  induction tags with
  | nil =>
    intro f x _
    simp [bumpCounts]
  | cons t ts ih =>
    intro f x h
    rw [show bumpCounts f (t :: ts) x
          = bumpCounts (fun y => if y = t then f y + 1 else f y) ts x from rfl]
    rw [ih _ _ (List.nodup_cons.mp h).2]
    by_cases hxt : x = t
    · subst hxt
      have hnx : x ∉ ts := (List.nodup_cons.mp h).1
      simp [hnx]
    · simp [hxt, List.mem_cons]

theorem getAllTags_aux : ∀ (contents : List String) (g : String → Nat) (tag : String),
    contents.foldl (fun f c => bumpCounts f (extractTags c)) g tag
      = g tag + contents.countP (fun c => decide (tag ∈ extractTags c)) := by
  intro contents
  induction contents with
  | nil =>
    intro g tag
    simp
  | cons c cs ih =>
    intro g tag
    rw [List.foldl_cons, ih, List.countP_cons]
    rw [bumpCounts_apply _ _ _ (extractTags_nodup c)]
    by_cases h : tag ∈ extractTags c
    · simp [h]
      omega
    · simp [h]

theorem replaceGo_of_not_contains :
    ∀ (fuel : Nat) (s pat rep : List Char), containsRun pat s = false →
      replaceGo fuel s pat rep = s := by
  intro fuel
  induction fuel with
  | zero =>
    intro s pat rep _
    rfl
  | succ n ih =>
    intro s pat rep h
    cases s with
    | nil => rfl
    | cons c rest =>
      have hsplit : pat.isPrefixOf (c :: rest) = false ∧ containsRun pat rest = false := by
        simpa [containsRun, Bool.or_eq_false_iff] using h
      show (if pat.isPrefixOf (c :: rest) && !pat.isEmpty then _ else _) = _
      rw [hsplit.1]
      simp only [Bool.false_and, Bool.false_eq_true, if_false]
      rw [ih rest pat rep hsplit.2]

theorem scanGo_sound : ∀ (fuel : Nat) (l : List Char) (ok : Bool) (i : Nat) (orig : List Char),
    orig.drop i = l →
    (ok = true → i = 0 ∨ ∃ p, orig[i - 1]? = some p ∧ isBoundary p = true) →
    ∀ j t, (j, t) ∈ scanGo fuel l ok i →
      orig[j]? = some '#' ∧ (j = 0 ∨ ∃ p, orig[j - 1]? = some p ∧ isBoundary p = true) := by
  intro fuel
  induction fuel with
  | zero =>
    intro l ok i orig _ _ j t hmem
    simp [scanGo] at hmem
  | succ n ih =>
    intro l ok i orig hdrop hok j t hmem
    cases l with
    | nil => simp [scanGo] at hmem
    | cons c rest =>
      have hget : orig[i]? = some c := by
        have h0 := List.getElem?_drop orig i 0
        rw [hdrop] at h0
        simpa using h0.symm
      have hdrop1 : orig.drop (i + 1) = rest := by
        have h1 : (orig.drop i).drop 1 = orig.drop (i + 1) := by
          rw [List.drop_drop]
        rw [← h1, hdrop]
        rfl
      by_cases hc : (c = '#' && ok) = true
      · obtain ⟨hceq, hokt⟩ : c = '#' ∧ ok = true := by simpa using hc
        by_cases hw : (rest.takeWhile isTagChar).isEmpty = true
        · have hmem' : (j, t) ∈ scanGo n rest false (i + 1) := by
            simpa [scanGo, hc, hw] using hmem
          exact ih rest false (i + 1) orig hdrop1
            (fun hfalse => absurd hfalse Bool.false_ne_true) j t hmem'
        · have hunf : scanGo (n + 1) (c :: rest) ok i
              = (i, String.mk (rest.takeWhile isTagChar))
                :: scanGo n (rest.drop (rest.takeWhile isTagChar).length) false
                    (i + 1 + (rest.takeWhile isTagChar).length) := by
            simp [scanGo, hc, hw]
          rw [hunf] at hmem
          rcases List.mem_cons.mp hmem with heq | hmem2
          · have hj : j = i := congrArg Prod.fst heq
            subst hj
            exact ⟨by rw [hget, hceq], hok hokt⟩
          · have hdrop2 : orig.drop (i + 1 + (rest.takeWhile isTagChar).length)
                = rest.drop (rest.takeWhile isTagChar).length := by
              have h2 : (orig.drop (i + 1)).drop (rest.takeWhile isTagChar).length
                  = orig.drop (i + 1 + (rest.takeWhile isTagChar).length) := by
                rw [List.drop_drop]
              rw [← h2, hdrop1]
            exact ih _ false _ orig hdrop2
              (fun hfalse => absurd hfalse Bool.false_ne_true) j t hmem2
      · have hmem' : (j, t) ∈ scanGo n rest (isBoundary c) (i + 1) := by
          simpa [scanGo, hc] using hmem
        refine ih rest (isBoundary c) (i + 1) orig hdrop1 ?_ j t hmem'
        intro hb
        right
        exact ⟨c, by simpa using hget, hb⟩

/-! ## Claim theorems -/

/-- C1, counterexample: the TUI journal list (`loadJournals`) presents the
entries in `filepath.Glob` order, which is ascending by name — with the
two entries `2024-01-01` and `2024-01-02` on disk the listed id sequence
is ascending, not descending as claimed. -/
theorem loadJournals_not_descending_cex :
    loadJournalsIds twoEntryWorld = ["2024-01-01", "2024-01-02"] ∧
    ¬ SortedDesc (loadJournalsIds twoEntryWorld) := by
  refine ⟨by decide, ?_⟩
  intro h
  rw [show loadJournalsIds twoEntryWorld = ["2024-01-01", "2024-01-02"] from by decide] at h
  rw [SortedDesc, List.chain'_pair] at h
  exact absurd h (by decide)

/-- C1 (amended): the CLI journal listing (`listJournalEntries`) returns
the ids in descending (newest-first) lexicographic order — the reverse of
`filepath.Glob`'s ascending order — while the TUI journal list
(`loadJournals`) returns them in the ascending glob order, unsorted by
the code itself.  Both sequences enumerate exactly the files on disk. -/
theorem journalListings_order (w : WorldFS) (limit : Int) :
    loadJournalsIds w = globJournal w ∧
    SortedAsc (loadJournalsIds w) ∧
    List.Perm (loadJournalsIds w) (w.journal.map (·.1)) ∧
    listJournalEntriesIds 0 w = (loadJournalsIds w).reverse ∧
    SortedDesc (listJournalEntriesIds limit w) := by
  have hids : loadJournalsIds w = globJournal w := by
    simp only [loadJournalsIds, loadJournals, List.map_map]
    exact List.map_id _
  refine ⟨hids, ?_, ?_, ?_, ?_⟩
  · rw [hids]
    exact sortAsc_sortedAsc _
  · rw [hids]
    exact sortAsc_perm _
  · rw [hids]
    simp [listJournalEntriesIds]
  · have hdesc : SortedDesc ((globJournal w).reverse) :=
      sortedDesc_reverse _ (sortAsc_sortedAsc _)
    unfold listJournalEntriesIds
    by_cases hcond : 0 < limit ∧ limit < ((((globJournal w).reverse).length : Nat) : Int)
    · rw [if_pos hcond]
      exact List.Chain'.take hdesc _
    · rw [if_neg hcond]
      exact hdesc

/-- C3, counterexample: with iteration order `a` before `b`, the value
substituted for `a` introduces the placeholder of `b`, and the later
`ReplaceAll` pass for `b` rewrites it: the output is `X`, not the
placeholder text the claimed single-pass semantics would leave. -/
theorem substituteVariables_singlepass_cex :
    substituteVariables "\x7b\x7ba\x7d\x7d" [("a", "\x7b\x7bb\x7d\x7d"), ("b", "X")] = "X" ∧
    ("X" : String) ≠ "\x7b\x7bb\x7d\x7d" := by
  constructor
  · decide
  · decide

/-- C3 (amended): substitution is literal and sequential — one
`strings.ReplaceAll` per key in map-iteration order.  Content containing
no key's placeholder is returned unchanged (in particular unknown
placeholders are left verbatim), but substitution is not single-pass:
placeholder text introduced by an earlier key's value is rewritten by a
later key's pass, as the second conjunct exhibits for every value `v`. -/
theorem substituteVariables_sequential (c : String) (vars : List (String × String))
    (h : ∀ kv ∈ vars, containsRun ("\x7b\x7b" ++ kv.1 ++ "\x7d\x7d").data c.data = false) :
    substituteVariables c vars = c ∧
    ∀ v : String,
      substituteVariables "\x7b\x7ba\x7d\x7d" [("a", "\x7b\x7bb\x7d\x7d"), ("b", v)] = v := by
  constructor
  · revert h
    induction vars with
    | nil =>
      intro _
      rfl
    | cons kv rest ih =>
      intro h
      have hstep : replaceAllStr c ("\x7b\x7b" ++ kv.1 ++ "\x7d\x7d") kv.2 = c := by
        unfold replaceAllStr
        rw [replaceGo_of_not_contains _ _ _ _ (h kv (List.mem_cons_self kv rest))]
      show substituteVariables
        (replaceAllStr c ("\x7b\x7b" ++ kv.1 ++ "\x7d\x7d") kv.2) rest = c
    
      rw [hstep]
      exact ih (fun kv2 hkv2 => h kv2 (List.mem_cons_of_mem _ hkv2))
  · intro v
    have h1 : replaceAllStr "\x7b\x7ba\x7d\x7d" ("\x7b\x7b" ++ "a" ++ "\x7d\x7d")
        "\x7b\x7bb\x7d\x7d" = "\x7b\x7bb\x7d\x7d" := by decide
    show replaceAllStr
        (replaceAllStr "\x7b\x7ba\x7d\x7d" ("\x7b\x7b" ++ "a" ++ "\x7d\x7d") "\x7b\x7bb\x7d\x7d")
        ("\x7b\x7b" ++ "b" ++ "\x7d\x7d") v = v
    rw [h1]
    show String.mk (replaceGo 5 "\x7b\x7bb\x7d\x7d".data "\x7b\x7bb\x7d\x7d".data v.data) = v
    rw [show replaceGo 5 "\x7b\x7bb\x7d\x7d".data "\x7b\x7bb\x7d\x7d".data v.data
          = v.data ++ [] from rfl]
    rw [List.append_nil]

/-- C3 witness: a content string containing none of the mapping's
placeholders is returned unchanged, and the second-pass behavior at the
concrete value `V`. -/
theorem substituteVariables_sequential_witness :
    (substituteVariables "hello \x7b\x7bunknown\x7d\x7d" [("date", "D")]
        = "hello \x7b\x7bunknown\x7d\x7d") ∧
    substituteVariables "\x7b\x7ba\x7d\x7d" [("a", "\x7b\x7bb\x7d\x7d"), ("b", "V")] = "V" := by
  have hs := substituteVariables_sequential "hello \x7b\x7bunknown\x7d\x7d"
    [("date", "D")] (by decide)
  exact ⟨hs.1, hs.2 "V"⟩

/-- C4: every raw match produced by the tag scanner sits at a `#` that is
either at the start of the content or preceded by a character that is
neither `#` (headings are excluded) nor a word character (no tag inside
a larger word); and concretely `extractTags "## heading #tag" = ["tag"]`. -/
theorem extractTags_heading_exclusion (s : String) (j : Nat) (t : String)
    (h : (j, t) ∈ scanMatches s.data) :
    (s.data[j]? = some '#' ∧
      (j = 0 ∨ ∃ p, s.data[j - 1]? = some p ∧ p ≠ '#' ∧ isWordChar p = false)) ∧
    extractTags "## heading #tag" = ["tag"] := by
  refine ⟨?_, by decide⟩
  have hs := scanGo_sound s.data.length s.data true 0 s.data (by simp)
    (fun _ => Or.inl rfl) j t h
  refine ⟨hs.1, ?_⟩
  rcases hs.2 with h0 | ⟨p, hp, hb⟩
  · exact Or.inl h0
  · refine Or.inr ⟨p, hp, ?_, ?_⟩
    · intro hpe
      rw [hpe] at hb
      simp [isBoundary] at hb
    · by_contra hw
      have hwt : isWordChar p = true := by
        revert hw
        cases isWordChar p <;> simp
      rw [isBoundary] at hb
      simp [hwt] at hb

/-- C4 witness: the match of `#tag` in `"a #tag"` starts at index 2,
preceded by a space (not `#`, not a word character). -/
theorem extractTags_heading_exclusion_witness :
    (("a #tag" : String).data[2]? = some '#' ∧
      ((2 : Nat) = 0 ∨ ∃ p, ("a #tag" : String).data[2 - 1]? = some p ∧
        p ≠ '#' ∧ isWordChar p = false)) ∧
    extractTags "## heading #tag" = ["tag"] :=
  extractTags_heading_exclusion "a #tag" 2 "tag" (by decide)

/-- C5: the tag index count of a tag equals the number of files (file
contents) whose `extractTags` contains it; repeated occurrences inside a
single file count once — concretely a file `"#x #x #x"` contributes
exactly 1 to `x`. -/
theorem getAllTags_distinct_file_count (contents : List String) (tag : String) :
    getAllTags contents tag = contents.countP (fun c => decide (tag ∈ extractTags c)) ∧
    getAllTags ["#x #x #x"] "x" = 1 := by
  refine ⟨?_, by decide⟩
  unfold getAllTags
  rw [getAllTags_aux]
  simp

/-- C10: substituting with an empty variable mapping is the identity on
the content, byte for byte. -/
theorem substituteVariables_empty_identity (content : String) :
    substituteVariables content [] = content := rfl

/-- C2, counterexample: `saveTheme` itself performs no catalog check — for
a name absent from the catalog it succeeds (no error), creates the config
directory and writes the name to the config file. -/
theorem saveTheme_unchecked_cex :
    themesCatalog.lookup "definitely-not-a-theme" = none ∧
    (saveTheme "definitely-not-a-theme" freshThemeFS).2 = none ∧
    (saveTheme "definitely-not-a-theme" freshThemeFS).1.dirExists = true ∧
    (saveTheme "definitely-not-a-theme" freshThemeFS).1.config
      = some "\"definitely-not-a-theme\"" := by
  refine ⟨by decide, by decide, by decide, by decide⟩

/-- C2 (amended): the unrecognized-name check is performed by the caller,
not by the store: the `theme set` command rejects a name absent from the
catalog before attempting any I/O (the file-system state is returned
untouched — no directory creation, no write), while `saveTheme` itself
validates nothing and writes whatever name it is given whenever the OS
calls succeed. -/
theorem themeSetCmd_checks_before_io (themeName : String) (fs : ThemeFS)
    (h : themesCatalog.lookup themeName = none) :
    themeSetCmd themeName fs = (fs, "Theme " ++ themeName ++ " not found") ∧
    ∀ n fs2, (saveTheme n fs2).2 = none →
      (saveTheme n fs2).1.config = some (jsonEncodeString n) := by
  constructor
  · simp [themeSetCmd, h]
  · intro n fs2 hok
    unfold saveTheme at hok ⊢
    by_cases h1 : fs2.mkdirFails
    · simp [h1] at hok
    · by_cases h2 : fs2.writeFails
      · simp [h1, h2] at hok
      · simp [h1, h2]

/-- C2 witness: with no config directory and no injected OS failures, the
command rejects the name `nosuch` and performs no I/O. -/
theorem themeSetCmd_checks_before_io_witness :
    themeSetCmd "nosuch" freshThemeFS = (freshThemeFS, "Theme " ++ "nosuch" ++ " not found") :=
  (themeSetCmd_checks_before_io "nosuch" freshThemeFS (by decide)).1

/-- C6: `loadTheme` is total and never errors — it returns the built-in
default (`themes["violet"]`) when the config file is missing, unreadable,
not a JSON string, or names a theme absent from the catalog; when the
file contains the persisted encoding of a catalog name, it returns that
catalog theme; and its result is always a catalog theme. -/
theorem loadTheme_spec :
    loadTheme .missing = violetTheme ∧
    loadTheme .unreadable = violetTheme ∧
    (∀ data, jsonDecodeString data = none → loadTheme (.content data) = violetTheme) ∧
    (∀ data themeName, jsonDecodeString data = some themeName →
      themesCatalog.lookup themeName = none → loadTheme (.content data) = violetTheme) ∧
    (∀ themeName t, themesCatalog.lookup themeName = some t →
      loadTheme (.content (jsonEncodeString themeName)) = t) ∧
    (∀ f, ∃ themeName, themesCatalog.lookup themeName = some (loadTheme f)) := by
  refine ⟨rfl, rfl, ?_, ?_, ?_, ?_⟩
  · intro data hd
    simp [loadTheme, readThemeFile, hd]
  · intro data themeName hd hl
    simp [loadTheme, readThemeFile, hd, hl]
  · intro themeName t hl
    have hmem := lookup_mem _ _ _ hl
    simp only [themesCatalog] at hmem
    fin_cases hmem <;> decide
  · intro f
    cases f with
    | missing => exact ⟨"violet", by decide⟩
    | unreadable => exact ⟨"violet", by decide⟩
    | content data =>
      cases hd : jsonDecodeString data with
      | none =>
        refine ⟨"violet", ?_⟩
        simp [loadTheme, readThemeFile, hd]
        decide
      | some nm =>
        cases hl : themesCatalog.lookup nm with
        | none =>
          refine ⟨"violet", ?_⟩
          simp [loadTheme, readThemeFile, hd, hl]
          decide
        | some t =>
          refine ⟨nm, ?_⟩
          simp [loadTheme, readThemeFile, hd, hl]

/-- C6 witness: concrete corrupted contents fall back to the default, an
unknown persisted name falls back to the default, and the persisted
encoding of `violet` loads the violet theme. -/
theorem loadTheme_spec_witness :
    loadTheme (.content "garbage") = violetTheme ∧
    loadTheme (.content "\"zzz\"") = violetTheme ∧
    loadTheme (.content (jsonEncodeString "violet")) = violetTheme :=
  ⟨loadTheme_spec.2.2.1 "garbage" (by decide),
   loadTheme_spec.2.2.2.1 "\"zzz\"" "zzz" (by decide) (by decide),
   loadTheme_spec.2.2.2.2.1 "violet" violetTheme (by decide)⟩

/-- Any status built as `"Error..." ++ mid ++ post` starts with `Error`. -/
theorem take5_error (pre mid post : String)
    (hlen : 5 ≤ pre.data.length) (hp : pre.data.take 5 = "Error".data) :
    ((pre ++ mid ++ post)).data.take 5 = "Error".data := by
  have hd : (pre ++ mid ++ post).data = pre.data ++ (mid.data ++ post.data) := by
    show (pre.data ++ mid.data) ++ post.data = pre.data ++ (mid.data ++ post.data)
    rw [List.append_assoc]
  rw [hd, List.take_append_of_le_length hlen, hp]

/-- C7: in `listView`, the Delete event removes the selected entry's file
and reloads the active list from a fresh glob (mode stays `listView`,
cursor reset, the listed ids are exactly the remaining files); when the
removal fails, only the status message changes — it reports an error, the
mode stays `listView`, the file system and the in-memory lists are
untouched (no reload). -/
theorem deleteSelected_spec (m : Session) (w : WorldFS) (it : NoteItemM)
    (_hmode : m.mode = .listView) :
    (m.isJournal = true → m.journalsList.selected = some it →
      ((removeJournalOk w it.filename = false →
          deleteSelected m w
            = ({ m with statusMsg := "Error deleting: remove " ++ it.filename ++ ".md failed" },
               w)) ∧
       (removeJournalOk w it.filename = true →
          (deleteSelected m w).2 = { w with journal := collErase w.journal it.filename } ∧
          collFind (deleteSelected m w).2.journal it.filename = none ∧
          (deleteSelected m w).1.mode = .listView ∧
          (deleteSelected m w).1.isJournal = true ∧
          (deleteSelected m w).1.journalsList.items.map NoteItemM.filename
            = globJournal (deleteSelected m w).2 ∧
          (deleteSelected m w).1.journalsList.cursor = 0))) ∧
    (m.isJournal = false → m.notesList.selected = some it →
      ((removeNoteOk w it.filename = false →
          deleteSelected m w
            = ({ m with statusMsg := "Error deleting: remove " ++ it.filename ++ ".md failed" },
               w)) ∧
       (removeNoteOk w it.filename = true →
          (deleteSelected m w).2 = { w with notes := collErase w.notes it.filename } ∧
          collFind (deleteSelected m w).2.notes it.filename = none ∧
          (deleteSelected m w).1.mode = .listView ∧
          (deleteSelected m w).1.isJournal = false ∧
          (deleteSelected m w).1.notesList.items.map NoteItemM.filename
            = globNotes (deleteSelected m w).2 ∧
          (deleteSelected m w).1.notesList.cursor = 0))) := by
  constructor
  · intro hJ hsel
    constructor
    · intro hrem
      simp [deleteSelected, hJ, hsel, hrem]
    · intro hrem
      have hred : deleteSelected m w
          = (loadJournals { m with statusMsg := "Deleted successfully" }
               { w with journal := collErase w.journal it.filename },
             { w with journal := collErase w.journal it.filename }) := by
        simp [deleteSelected, hJ, hsel, hrem]
      rw [hred]
      refine ⟨rfl, collFind_collErase _ _, rfl, rfl, ?_, rfl⟩
      simp only [loadJournals, List.map_map]
      exact List.map_id _
  · intro hJ hsel
    constructor
    · intro hrem
      simp [deleteSelected, hJ, hsel, hrem]
    · intro hrem
      have hred : deleteSelected m w
          = (loadNotes { m with statusMsg := "Deleted successfully" }
               { w with notes := collErase w.notes it.filename },
             { w with notes := collErase w.notes it.filename }) := by
        simp [deleteSelected, hJ, hsel, hrem]
      rw [hred]
      refine ⟨rfl, collFind_collErase _ _, rfl, rfl, ?_, rfl⟩
      simp only [loadNotes, List.map_map]
      exact List.map_id _

/-- C7 witness: deleting the selected journal entry when its file is
absent on disk fails, and the session keeps its list and mode, changing
only the status message; the file system is unchanged. -/
theorem deleteSelected_spec_witness :
    deleteSelected sampleListSession emptyWorld
      = ({ sampleListSession with
            statusMsg := "Error deleting: remove " ++ "2024-01-02" ++ ".md failed" },
         emptyWorld) :=
  ((deleteSelected_spec sampleListSession emptyWorld
      { filename := "2024-01-02", title := "2024-01-02" } rfl).1 rfl (by decide)).1 (by decide)

/-- C8: in `editorView`, Save writes the editor buffer to disk under the
current item id — or a freshly generated id when none is set: today's
date for the journal collection, `note-<unix-seconds>` for notes — and in
every branch changes nothing but the status message (so the session stays
in `editorView`); the status reports success, or starts with `Error` on
failure (in which case the file system is untouched). -/
theorem saveCurrentNote_spec (m : Session) (w : WorldFS) (today : String) (unixSec : Nat)
    (hmode : m.mode = .editorView) :
    ((saveCurrentNote m w today unixSec).1
        = { m with statusMsg := (saveCurrentNote m w today unixSec).1.statusMsg } ∧
     (saveCurrentNote m w today unixSec).1.mode = .editorView) ∧
    (m.isJournal = true →
      ((w.mkdirJournalFails = false →
        w.journalWriteFails.contains (if m.currentNote = "" then today else m.currentNote)
            = false →
          collFind (saveCurrentNote m w today unixSec).2.journal
              (if m.currentNote = "" then today else m.currentNote) = some m.editorBuffer ∧
          (saveCurrentNote m w today unixSec).1.statusMsg
            = "Journal saved successfully! Press Esc to go back") ∧
       (w.mkdirJournalFails = true ∨
        w.journalWriteFails.contains (if m.currentNote = "" then today else m.currentNote)
            = true →
          (saveCurrentNote m w today unixSec).2 = w ∧
          ((saveCurrentNote m w today unixSec).1.statusMsg).data.take 5 = "Error".data))) ∧
    (m.isJournal = false →
      ((w.noteWriteFails.contains
            (if m.currentNote = "" then "note-" ++ toString unixSec else m.currentNote)
            = false →
          collFind (saveCurrentNote m w today unixSec).2.notes
              (if m.currentNote = "" then "note-" ++ toString unixSec else m.currentNote)
            = some m.editorBuffer ∧
          (saveCurrentNote m w today unixSec).1.statusMsg
            = "Note saved successfully! Press Esc to go back") ∧
       (w.noteWriteFails.contains
            (if m.currentNote = "" then "note-" ++ toString unixSec else m.currentNote)
            = true →
          (saveCurrentNote m w today unixSec).2 = w ∧
          ((saveCurrentNote m w today unixSec).1.statusMsg).data.take 5 = "Error".data))) := by
  refine ⟨⟨?_, ?_⟩, ?_, ?_⟩
  · simp only [saveCurrentNote]
    split_ifs <;> rfl
  · have hfr : (saveCurrentNote m w today unixSec).1.mode = m.mode := by
      simp only [saveCurrentNote]
      split_ifs <;> rfl
    rw [hfr, hmode]
  · intro hJ
    constructor
    · intro hmk hwc
      have hwc2 : (if m.currentNote = "" then today else m.currentNote) ∉ w.journalWriteFails := by
        simpa using hwc
      have hred : saveCurrentNote m w today unixSec
          = ({ m with statusMsg := "Journal saved successfully! Press Esc to go back" },
             { w with journal := collWrite w.journal (if m.currentNote = "" then today else m.currentNote) m.editorBuffer }) := by
        simp [saveCurrentNote, hJ, hmk, hwc2]
      rw [hred]
      exact ⟨collFind_collWrite _ _ _, rfl⟩
    · intro hfail
      by_cases hmk : w.mkdirJournalFails = true
      · have hred : saveCurrentNote m w today unixSec
            = ({ m with statusMsg := "Error: creating journal directory failed" }, w) := by
          simp [saveCurrentNote, hJ, hmk]
        rw [hred]
        exact ⟨rfl, rfl⟩
      · have hwc : w.journalWriteFails.contains
            (if m.currentNote = "" then today else m.currentNote) = true := by
          rcases hfail with h | h
          · exact absurd h hmk
          · exact h
        have hwc2 : (if m.currentNote = "" then today else m.currentNote) ∈ w.journalWriteFails := by
          simpa using hwc
        have hred : saveCurrentNote m w today unixSec
            = ({ m with statusMsg := "Error saving journal: write " ++ (if m.currentNote = "" then today else m.currentNote) ++ ".md failed" },
               w) := by
          simp [saveCurrentNote, hJ, hmk, hwc2]
        rw [hred]
        refine ⟨rfl, ?_⟩
        exact take5_error "Error saving journal: write " _ ".md failed" (by decide) (by decide)
  · intro hJ
    have hJf : m.isJournal = false := hJ
    constructor
    · intro hwc
      have hwc2 : (if m.currentNote = "" then "note-" ++ toString unixSec else m.currentNote) ∉ w.noteWriteFails := by
        simpa using hwc
      have hred : saveCurrentNote m w today unixSec
          = ({ m with statusMsg := "Note saved successfully! Press Esc to go back" },
             { w with notes := collWrite w.notes (if m.currentNote = "" then "note-" ++ toString unixSec else m.currentNote) m.editorBuffer }) := by
        simp [saveCurrentNote, hJf, hwc2]
      rw [hred]
      exact ⟨collFind_collWrite _ _ _, rfl⟩
    · intro hwc
      have hwc2 : (if m.currentNote = "" then "note-" ++ toString unixSec else m.currentNote) ∈ w.noteWriteFails := by
        simpa using hwc
      have hred : saveCurrentNote m w today unixSec
          = ({ m with statusMsg := "Error saving note: write " ++ (if m.currentNote = "" then "note-" ++ toString unixSec else m.currentNote) ++ ".md failed" },
             w) := by
        simp [saveCurrentNote, hJf, hwc2]
      rw [hred]
      refine ⟨rfl, ?_⟩
      exact take5_error "Error saving note: write " _ ".md failed" (by decide) (by decide)

/-- C8 witness: saving a fresh journal entry (no current id) on
2024-05-05 writes the buffer under the generated id `2024-05-05`,
reports success, and the session remains in `editorView`. -/
theorem saveCurrentNote_spec_witness :
    collFind (saveCurrentNote sampleEditorSession emptyWorld "2024-05-05" 42).2.journal
        (if sampleEditorSession.currentNote = "" then "2024-05-05"
          else sampleEditorSession.currentNote)
      = some sampleEditorSession.editorBuffer ∧
    (saveCurrentNote sampleEditorSession emptyWorld "2024-05-05" 42).1.statusMsg
      = "Journal saved successfully! Press Esc to go back" :=
  ((saveCurrentNote_spec sampleEditorSession emptyWorld "2024-05-05" 42 rfl).2.1 rfl).1
    rfl rfl

/-- C9, counterexample: Back in the menu is not a no-op.  The session's
fields are unchanged, but the update issues `tea.Quit` (second component
`true`): the unconsumed `esc` reaches the menu list, whose default
bubbles key map binds Quit to `esc` (ClearFilter, the only other `esc`
consumer, is disabled while no filter is applied), so the program
exits — a no-op would be `(sampleMenuSession, false)`. -/
theorem backKey_menu_not_noop_cex :
    updateGlobalKey sampleMenuSession .backKey ≠ (sampleMenuSession, false) ∧
    updateGlobalKey sampleMenuSession .backKey = (sampleMenuSession, true) := by
  constructor
  · intro h
    exact absurd (congrArg Prod.snd h) (by decide)
  · rfl

/-- C9 (amended): the Back (esc) key moves any non-menu mode to the menu
with status "Returned to main menu" and no quit command; in the menu it
leaves the session's fields unchanged but quits the program (the
unconsumed key reaches the menu list, whose default Quit binding
includes `esc`, so `tea.Quit` is returned). -/
theorem backKey_spec (m : Session) :
    (m.mode ≠ .menuView →
      updateGlobalKey m .backKey
        = ({ m with mode := .menuView, statusMsg := "Returned to main menu" }, false)) ∧
    (m.mode = .menuView → updateGlobalKey m .backKey = (m, true)) := by
  constructor
  · intro h
    simp [updateGlobalKey, h]
  · intro h
    simp [updateGlobalKey, h]

/-- C9 witness: Back from the list view returns to the menu with the
announced status and no quit; Back in the menu keeps the session's
fields but quits. -/
theorem backKey_spec_witness :
    updateGlobalKey sampleListSession .backKey
      = ({ sampleListSession with mode := .menuView, statusMsg := "Returned to main menu" }, false) ∧
    updateGlobalKey sampleMenuSession .backKey = (sampleMenuSession, true) :=
  ⟨(backKey_spec sampleListSession).1 (by decide),
   (backKey_spec sampleMenuSession).2 rfl⟩
